import Mathlib

/-!
Shallow embedding of the appointment store and mock-auth gate of
`src/App.tsx` (single-page clinic app).

Conventions of the embedding:

* JavaScript strings are modelled as Lean `String`; `password.length` is
  `String.length` (code-point count, which agrees with the code-unit count
  of the source for all non-astral text).
* `Math.random().toString(36).substr(2, 9)` — the id generator — is
  nondeterministic in the source, so each call site takes the generated id
  as an explicit `genId : String` argument (the value the generator
  produced).  Note the generator can produce the empty string: when
  `Math.random()` returns 0 (allowed by ECMA-262, which only requires a
  value in [0, 1)), `(0).toString(36)` is "0" and `.substr(2, 9)` of it is
  empty.  Likewise `Date.now()` becomes an explicit `now : Nat`.
* `localStorage` holds a single key `ent_appointments` with the
  JSON-serialized appointment array; the JSON round trip is abstracted,
  so storage is `Option (List Appointment)` (`none` = key absent).
-/

/-- The TypeScript union of the string literals none, patient and doctor
(`AuthMode` in `src/App.tsx`).  The spec role names map as
anonymous = `anon`, patient = `patient`, staff = `doctor`. -/
inductive AuthMode where
  | anon
  | patient
  | doctor
deriving DecidableEq, Repr

/-- The TypeScript union of the string literals pending and done, used for
the `status` field of `Appointment`. -/
inductive Status where
  | pending
  | done
deriving DecidableEq, Repr

/-- The `Appointment` record type of `src/App.tsx` (lines 35–44). -/
structure Appointment where
  id : String
  patientName : String
  email : String
  phone : String
  service : String
  date : String
  status : Status
  createdAt : Nat
deriving DecidableEq, Repr

/-- The draft passed to `addAppointment`: an `Appointment` without the
system-assigned `id`, `status` and `createdAt` fields. -/
structure AppointmentDraft where
  patientName : String
  email : String
  phone : String
  service : String
  date : String
deriving DecidableEq, Repr

/-- The error message set by `AuthModal.handleSubmit` on failed login
(line 602 of `src/App.tsx`). -/
def invalidCredentialsMsg : String :=
  "Please enter valid credentials (min 4 chars password)"

/-- `AuthModal.handleSubmit` (lines 588–604 of `src/App.tsx`): the mock
authentication gate.  An email equal to "admin" with password equal to
"1234" logs in as doctor (staff); otherwise a truthy (non-empty) email
with a password of length at least 4 logs in as patient; otherwise the
error message is shown and no role is granted. -/
def handleSubmit (email password : String) : Except String AuthMode :=
  if email = "admin" ∧ password = "1234" then
    Except.ok AuthMode.doctor
  else if email ≠ "" ∧ password.length ≥ 4 then
    Except.ok AuthMode.patient
  else
    Except.error invalidCredentialsMsg

/-- The effect of one submission of the auth form on the session mode:
on success the `onAuth` callback of `App` stores the new mode (line 165);
on failure `handleSubmit` only sets the inline error, so the session
mode is untouched. -/
def submitAuth (current : AuthMode) (email password : String) : AuthMode :=
  match handleSubmit email password with
  | Except.ok m => m
  | Except.error _ => current

/-- The store state: the in-memory `appointments` React state of `App`,
together with the `ent_appointments` slot of `localStorage` (`none` when
the key has never been written). -/
structure StoreState where
  appointments : List Appointment
  storage : Option (List Appointment)
deriving DecidableEq, Repr

/-- Fresh process start with nothing persisted: `useState([])` and an
absent `localStorage` key. -/
def initialState : StoreState :=
  { appointments := [], storage := none }

/-- `saveAppointments` (lines 61–64 of `src/App.tsx`): replaces the
in-memory collection and synchronously writes the full snapshot to
`localStorage`. -/
def saveAppointments (s : StoreState) (newApps : List Appointment) : StoreState :=
  { s with appointments := newApps, storage := some newApps }

/-- The startup load effect (lines 53–58 of `src/App.tsx`), called
`loadAll` by the spec: reads the persisted snapshot; when the key is
absent the collection stays empty. -/
def loadAll (storage : Option (List Appointment)) : List Appointment :=
  match storage with
  | some saved => saved
  | none => []

/-- The record built inside `addAppointment` (lines 72–77 of
`src/App.tsx`): the draft fields plus the generated `id`, a `pending`
status and the current time as `createdAt`. -/
def mkAppointment (draft : AppointmentDraft) (genId : String) (now : Nat) :
    Appointment :=
  { id := genId, patientName := draft.patientName, email := draft.email,
    phone := draft.phone, service := draft.service, date := draft.date,
    status := Status.pending, createdAt := now }

/-- `addAppointment` (lines 71–79 of `src/App.tsx`): builds the new
record and saves the collection with it appended at the end. -/
def addAppointment (s : StoreState) (draft : AppointmentDraft)
    (genId : String) (now : Nat) : StoreState :=
  saveAppointments s (s.appointments ++ [mkAppointment draft genId now])

/-- `markDone` (lines 81–84 of `src/App.tsx`), called `remove` by the
spec: keeps exactly the records whose `id` differs from the given one and
saves the result.  It returns nothing in the source. -/
def markDone (s : StoreState) (id : String) : StoreState :=
  saveAppointments s (s.appointments.filter (fun app => app.id != id))

/-- The collection-wide invariant claimed by the spec: no two records
share an `id`. -/
def IdsUnique (l : List Appointment) : Prop :=
  (l.map (fun a => a.id)).Nodup

instance (l : List Appointment) : Decidable (IdsUnique l) := by
  unfold IdsUnique
  exact List.nodupDecidable _

/-- One store mutation, with the nondeterministic inputs of an `add`
(generator output and clock reading) made explicit. -/
inductive StoreOp where
  | add (draft : AppointmentDraft) (genId : String) (now : Nat)
  | remove (id : String)
deriving DecidableEq, Repr

/-- Applies one mutation to the store. -/
def applyOp (s : StoreState) : StoreOp → StoreState
  | StoreOp.add draft genId now => addAppointment s draft genId now
  | StoreOp.remove id => markDone s id

/-- Runs a sequence of mutations from a starting state. -/
def runOps (s : StoreState) (ops : List StoreOp) : StoreState :=
  ops.foldl applyOp s

/-- Checks that along the run every `add` draws a generator output that
does not already occur as an `id` of the collection at that moment, i.e.
that the run is collision-free. -/
def freshRun : StoreState → List StoreOp → Bool
  | _, [] => true
  | s, StoreOp.add draft genId now :: rest =>
      decide (genId ∉ s.appointments.map (fun a => a.id)) &&
        freshRun (addAppointment s draft genId now) rest
  | s, StoreOp.remove id :: rest => freshRun (markDone s id) rest

/-- A sample draft used in concrete runs. -/
def sampleDraft : AppointmentDraft :=
  { patientName := "Alice Smith", email := "alice@x.com", phone := "111",
    service := "Sinus & Allergy", date := "2026-02-01" }

/-- The draft of the booking scenario in the spec. -/
def janeDraft : AppointmentDraft :=
  { patientName := "Jane Doe", email := "jane@x.com", phone := "555",
    service := "Audiology", date := "2026-01-10" }

/-- A state holding two records that share the id "d5" — reachable
because the generator result is never checked against existing ids. -/
def dupState : StoreState :=
  { appointments :=
      [mkAppointment sampleDraft "d5" 10, mkAppointment janeDraft "d5" 20],
    storage := none }

/-- A well-formed state holding two records with distinct ids. -/
def pairState : StoreState :=
  { appointments :=
      [mkAppointment sampleDraft "w5" 30, mkAppointment janeDraft "w6" 40],
    storage :=
      some [mkAppointment sampleDraft "w5" 30, mkAppointment janeDraft "w6" 40] }

/-! ## Helper lemmas -/

theorem mem_filter_ne {l : List Appointment} {id : String} {a : Appointment}
    (ha : a ∈ l.filter (fun app => app.id != id)) : a.id ≠ id := by
  have h := (List.mem_filter.mp ha).2
  simpa using h

theorem mem_filter_of_ne {l : List Appointment} {id : String}
    {a : Appointment} (ha : a ∈ l) (hne : a.id ≠ id) :
    a ∈ l.filter (fun app => app.id != id) := by
  refine List.mem_filter.mpr ⟨ha, ?_⟩
  simpa using hne

theorem length_filter_ne_of_count (l : List Appointment) (id : String) :
    (l.filter (fun app => app.id != id)).length
      = l.length - (l.map (fun a => a.id)).count id := by
  induction l with
  | nil => rfl
  | cons a l ih =>
    have hcle : (l.map (fun a => a.id)).count id ≤ l.length := by
      have hx := List.count_le_length (a := id) (l := l.map (fun a => a.id))
      simpa using hx
    by_cases h : a.id = id
    · have hb : (a.id != id) = false := by simp [h]
      have hcount : ((a :: l).map (fun a => a.id)).count id
          = (l.map (fun a => a.id)).count id + 1 := by
        rw [List.map_cons, h]
        exact List.count_cons_self id _
      rw [List.filter_cons, hb, hcount, List.length_cons]
      simp only [Bool.false_eq_true, if_false]
      rw [ih]
      omega
    · have hb : (a.id != id) = true := by simpa using h
      have hcount : ((a :: l).map (fun a => a.id)).count id
          = (l.map (fun a => a.id)).count id := by
        rw [List.map_cons]
        exact List.count_cons_of_ne (fun he => h he.symm) _
      rw [List.filter_cons, hb, hcount]
      simp only [if_true, List.length_cons]
      rw [ih]
      omega

theorem freshRun_append {p : List StoreOp} {s : StoreState}
    {q : List StoreOp} (h : freshRun s (p ++ q) = true) :
    freshRun s p = true := by
  induction p generalizing s with
  | nil => rfl
  | cons op rest ih =>
    cases op with
    | add draft genId now =>
      rw [List.cons_append] at h
      simp only [freshRun, Bool.and_eq_true] at h ⊢
      exact ⟨h.1, ih h.2⟩
    | remove id =>
      rw [List.cons_append] at h
      simp only [freshRun] at h ⊢
      exact ih h

theorem idsUnique_addAppointment {s : StoreState}
    (draft : AppointmentDraft) {genId : String} (now : Nat)
    (hu : IdsUnique s.appointments)
    (hfresh : genId ∉ s.appointments.map (fun a => a.id)) :
    IdsUnique (addAppointment s draft genId now).appointments := by
  unfold IdsUnique at hu ⊢
  have hmap : (addAppointment s draft genId now).appointments.map (fun a => a.id)
      = s.appointments.map (fun a => a.id) ++ [genId] := by
    simp [addAppointment, saveAppointments, mkAppointment]
  rw [hmap, List.nodup_append]
  refine ⟨hu, List.nodup_singleton _, ?_⟩
  intro x hx hx1
  rcases List.mem_singleton.mp hx1 with rfl
  exact hfresh hx

theorem idsUnique_markDone {s : StoreState} (id : String)
    (hu : IdsUnique s.appointments) :
    IdsUnique (markDone s id).appointments := by
  unfold IdsUnique at hu ⊢
  have hsub : (markDone s id).appointments.Sublist s.appointments :=
    List.filter_sublist _
  exact List.Nodup.sublist (List.Sublist.map (fun a => a.id) hsub) hu

theorem idsUnique_runOps (ops : List StoreOp) :
    ∀ s : StoreState, IdsUnique s.appointments → freshRun s ops = true →
      IdsUnique (runOps s ops).appointments := by
  induction ops with
  | nil => intro s hu _; exact hu
  | cons op rest ih =>
    intro s hu hf
    cases op with
    | add draft genId now =>
      simp only [freshRun, Bool.and_eq_true, decide_eq_true_eq] at hf
      exact ih _ (idsUnique_addAppointment draft now hu hf.1) hf.2
    | remove id =>
      simp only [freshRun] at hf
      exact ih _ (idsUnique_markDone id hu) hf

/-! ## Claims about the session gate -/

/-- Claim C1: for every credential pair with identifier exactly "admin" and
secret exactly "1234", authenticate succeeds with the staff role (the
code mode `doctor`). -/
theorem admin_pair_authenticates_staff (email password : String)
    (he : email = "admin") (hp : password = "1234") :
    handleSubmit email password = Except.ok AuthMode.doctor := by
  subst he hp
  rfl

theorem admin_pair_authenticates_staff_witness :
    handleSubmit "admin" "1234" = Except.ok AuthMode.doctor :=
  admin_pair_authenticates_staff "admin" "1234" rfl rfl

/-- Claim C2: for every credential pair with a non-empty identifier and a
secret of length at least 4, other than the ("admin", "1234") pair,
authenticate succeeds with the patient role. -/
theorem nonadmin_valid_pair_authenticates_patient (email password : String)
    (he : email ≠ "") (hp : password.length ≥ 4)
    (hna : ¬ (email = "admin" ∧ password = "1234")) :
    handleSubmit email password = Except.ok AuthMode.patient := by
  unfold handleSubmit
  rw [if_neg hna, if_pos ⟨he, hp⟩]

theorem nonadmin_valid_pair_authenticates_patient_witness :
    handleSubmit "jane@x.com" "hunter2022" = Except.ok AuthMode.patient :=
  nonadmin_valid_pair_authenticates_patient "jane@x.com" "hunter2022"
    (by decide) (by decide) (by decide)

/-- Claim C3: every credential pair that is neither the admin pair nor a
(non-empty identifier, length-≥-4 secret) pair fails with the invalid
credentials error, and a failed attempt leaves the session mode
unchanged. -/
theorem invalid_pair_fails_session_unchanged (email password : String)
    (current : AuthMode)
    (hna : ¬ (email = "admin" ∧ password = "1234"))
    (hnp : ¬ (email ≠ "" ∧ password.length ≥ 4)) :
    handleSubmit email password = Except.error invalidCredentialsMsg ∧
      submitAuth current email password = current := by
  have hfail : handleSubmit email password = Except.error invalidCredentialsMsg := by
    unfold handleSubmit
    rw [if_neg hna, if_neg hnp]
  refine ⟨hfail, ?_⟩
  unfold submitAuth
  rw [hfail]

theorem invalid_pair_fails_session_unchanged_witness :
    handleSubmit "bob" "123" = Except.error invalidCredentialsMsg ∧
      submitAuth AuthMode.anon "bob" "123" = AuthMode.anon :=
  invalid_pair_fails_session_unchanged "bob" "123" AuthMode.anon
    (by decide) (by decide)

/-! ## Claims about the appointment store -/

/-- Claim C4 (amended): for every draft, current state, generator output
and clock reading, `addAppointment` builds the record from the draft with
the generated id (the generator result is used as-is, with no uniqueness
check, so freshness is not guaranteed), with status `pending` and
`createdAt` equal to the call time, appends it at the end of the ordered
collection, synchronously persists the full updated collection, and the
created record is the last element of the updated collection. -/
theorem add_appends_pending_persists (s : StoreState)
    (draft : AppointmentDraft) (genId : String) (now : Nat) :
    (addAppointment s draft genId now).appointments
        = s.appointments ++ [mkAppointment draft genId now] ∧
      (mkAppointment draft genId now).status = Status.pending ∧
      (mkAppointment draft genId now).createdAt = now ∧
      (mkAppointment draft genId now).id = genId ∧
      (addAppointment s draft genId now).storage
        = some (s.appointments ++ [mkAppointment draft genId now]) ∧
      (addAppointment s draft genId now).appointments.getLast?
        = some (mkAppointment draft genId now) := by
  refine ⟨rfl, rfl, rfl, rfl, rfl, ?_⟩
  simp [addAppointment, saveAppointments]

/-- Claim C4 counterexample: with the collection already holding a record
with id "dup", an `add` whose generator again outputs "dup" (possible,
since `Math.random` values can repeat) yields a collection with a
duplicated id — the assigned id is not fresh and not unique. -/
theorem add_id_not_unique_cex :
    ¬ IdsUnique (addAppointment
        (addAppointment initialState sampleDraft "dup" 1)
        sampleDraft "dup" 2).appointments := by
  decide

/-- Claim C5 (amended): `markDone` persists the full updated collection
synchronously; when the id occurs exactly once in the collection the
result has one record fewer and no record with that id; when the id is
absent the collection is unchanged (a no-op, not an error).  The source
returns no removed/not-found boolean; the outcome is observable only
through the collection change. -/
theorem markDone_removes_and_persists (s : StoreState) (id : String) :
    (markDone s id).storage = some ((markDone s id).appointments) ∧
      ((s.appointments.map (fun a => a.id)).count id = 1 →
        (markDone s id).appointments.length = s.appointments.length - 1 ∧
          ∀ a ∈ (markDone s id).appointments, a.id ≠ id) ∧
      (id ∉ s.appointments.map (fun a => a.id) →
        (markDone s id).appointments = s.appointments) := by
  have hrepr : (markDone s id).appointments
      = s.appointments.filter (fun app => app.id != id) := rfl
  refine ⟨rfl, ?_, ?_⟩
  · intro hcount
    constructor
    · rw [hrepr, length_filter_ne_of_count, hcount]
    · intro a ha
      rw [hrepr] at ha
      exact mem_filter_ne ha
  · intro habs
    rw [hrepr]
    apply List.filter_eq_self.mpr
    intro a ha
    have hne : a.id ≠ id := by
      intro he
      exact habs (he ▸ List.mem_map_of_mem (fun a => a.id) ha)
    simpa using hne

theorem markDone_removes_and_persists_witness :
    ((pairState.appointments.map (fun a => a.id)).count "w5" = 1 ∧
        (markDone pairState "w5").appointments.length
          = pairState.appointments.length - 1) ∧
      ("zz" ∉ pairState.appointments.map (fun a => a.id) ∧
        (markDone pairState "zz").appointments = pairState.appointments) :=
  ⟨⟨by decide,
    ((markDone_removes_and_persists pairState "w5").2.1 (by decide)).1⟩,
   ⟨by decide,
    (markDone_removes_and_persists pairState "zz").2.2 (by decide)⟩⟩

/-- Claim C5 counterexample: on a collection of size 2 whose two records
share the id "d5" (reachable, as ids are generated without a uniqueness
check), `markDone "d5"` removes both records, so the result has size 0,
not size n − 1 = 1 as the claim states. -/
theorem markDone_duplicate_ids_cex :
    ¬ ((markDone dupState "d5").appointments.length
        = dupState.appointments.length - 1) := by
  decide

/-- Claim C6 (amended): for every sequence of add and remove operations
starting from the empty collection in which each add draws a generator
output distinct from every id present in the collection at that moment,
the ids in the collection are pairwise distinct at all times (i.e. after
every prefix of the sequence). -/
theorem ids_unique_under_fresh_ops (p q : List StoreOp)
    (hf : freshRun initialState (p ++ q) = true) :
    IdsUnique (runOps initialState p).appointments :=
  idsUnique_runOps p initialState (by decide) (freshRun_append hf)

theorem ids_unique_under_fresh_ops_witness :
    freshRun initialState
        ([StoreOp.add sampleDraft "a1" 1, StoreOp.remove "a1"]
          ++ [StoreOp.add janeDraft "a2" 2]) = true ∧
      IdsUnique (runOps initialState
        [StoreOp.add sampleDraft "a1" 1, StoreOp.remove "a1"]).appointments :=
  ⟨by decide,
   ids_unique_under_fresh_ops
     [StoreOp.add sampleDraft "a1" 1, StoreOp.remove "a1"]
     [StoreOp.add janeDraft "a2" 2] (by decide)⟩

/-- Claim C6 counterexample: two adds whose generator outputs coincide
(possible, since nothing prevents `Math.random` from repeating) leave the
collection with two records sharing the id "c6". -/
theorem ids_unique_cex :
    ¬ IdsUnique (runOps initialState
        [StoreOp.add sampleDraft "c6" 1,
         StoreOp.add janeDraft "c6" 2]).appointments := by
  decide

/-- Claim C7: from a fresh empty store, `add` followed by reloading the
persisted snapshot (a restart) yields exactly the added record, whose
status was auto-assigned `pending`; and after any `add` the reloaded
snapshot equals the in-memory collection (the persist-then-reload round
trip preserves the collection). -/
theorem add_then_loadAll_roundtrip (draft : AppointmentDraft)
    (genId : String) (now : Nat) (s : StoreState) :
    loadAll ((addAppointment initialState draft genId now).storage)
        = [mkAppointment draft genId now] ∧
      (mkAppointment draft genId now).status = Status.pending ∧
      loadAll ((addAppointment s draft genId now).storage)
        = (addAppointment s draft genId now).appointments :=
  ⟨rfl, rfl, rfl⟩

/-- Claim C8: insertion order is the iteration order: adding three
records to the empty collection lists them in exactly the order they
were added. -/
theorem insertion_order_preserved (dA dB dC : AppointmentDraft)
    (gA gB gC : String) (nA nB nC : Nat) :
    (addAppointment (addAppointment (addAppointment initialState
        dA gA nA) dB gB nB) dC gC nC).appointments
      = [mkAppointment dA gA nA, mkAppointment dB gB nB,
         mkAppointment dC gC nC] :=
  rfl

/-- Claim C9 (amended): starting empty, adding the Jane Doe draft yields
a single record with status `pending`, `createdAt` equal to the call
time, and an id equal to the generator output — non-empty whenever that
output is non-empty, which holds except in the degenerate case where
`Math.random()` returns 0; removing that id then empties the
collection. -/
theorem booking_scenario (genId : String) (now : Nat) (hg : genId ≠ "") :
    (addAppointment initialState janeDraft genId now).appointments
        = [mkAppointment janeDraft genId now] ∧
      (mkAppointment janeDraft genId now).status = Status.pending ∧
      (mkAppointment janeDraft genId now).id ≠ "" ∧
      (mkAppointment janeDraft genId now).createdAt = now ∧
      (markDone (addAppointment initialState janeDraft genId now)
          (mkAppointment janeDraft genId now).id).appointments = [] := by
  refine ⟨rfl, rfl, hg, rfl, ?_⟩
  simp [markDone, addAppointment, saveAppointments, initialState, mkAppointment]

theorem booking_scenario_witness :
    ("x7q3k9d2f" : String) ≠ "" ∧
      ((addAppointment initialState janeDraft "x7q3k9d2f" 1760000000000).appointments
          = [mkAppointment janeDraft "x7q3k9d2f" 1760000000000] ∧
        (mkAppointment janeDraft "x7q3k9d2f" 1760000000000).status = Status.pending ∧
        (mkAppointment janeDraft "x7q3k9d2f" 1760000000000).id ≠ "" ∧
        (mkAppointment janeDraft "x7q3k9d2f" 1760000000000).createdAt = 1760000000000 ∧
        (markDone (addAppointment initialState janeDraft "x7q3k9d2f" 1760000000000)
            (mkAppointment janeDraft "x7q3k9d2f" 1760000000000).id).appointments = []) :=
  ⟨by decide, booking_scenario "x7q3k9d2f" 1760000000000 (by decide)⟩

/-- Claim C9 counterexample: the generator output "" — produced when
`Math.random()` returns 0 — gives the created record an empty id, so the
record does not have a non-empty id as the claim states. -/
theorem booking_empty_id_cex :
    ¬ (∀ a ∈ (addAppointment initialState janeDraft "" 0).appointments,
        a.id ≠ "") := by
  decide

/-- Claim C10: `markDone` removes every record whose id equals the given
id (all matching records at once, when duplicates are present), keeps
every non-matching record, and the remaining records appear in their
original relative order (the result is a sublist of the original). -/
theorem markDone_filters_all_matching (s : StoreState) (id : String) :
    (∀ a ∈ (markDone s id).appointments, a.id ≠ id) ∧
      (∀ a ∈ s.appointments, a.id ≠ id → a ∈ (markDone s id).appointments) ∧
      (markDone s id).appointments.Sublist s.appointments := by
  have hrepr : (markDone s id).appointments
      = s.appointments.filter (fun app => app.id != id) := rfl
  refine ⟨?_, ?_, ?_⟩
  · intro a ha
    rw [hrepr] at ha
    exact mem_filter_ne ha
  · intro a ha hne
    rw [hrepr]
    exact mem_filter_of_ne ha hne
  · rw [hrepr]
    exact List.filter_sublist _

theorem markDone_filters_all_matching_witness :
    (∀ a ∈ (markDone dupState "d5").appointments, a.id ≠ "d5") ∧
      (∀ a ∈ dupState.appointments, a.id ≠ "d5" →
        a ∈ (markDone dupState "d5").appointments) ∧
      (markDone dupState "d5").appointments.Sublist dupState.appointments :=
  markDone_filters_all_matching dupState "d5"
